import Mathlib

/-!
Verification development for the DSL conversational-script engine
(src/end/src/dsl): lexer, runtime environment, stepping interpreter
(better_interpreter.py), legacy interpreter (interpreter.py) and the
turn driver (main_controller.py).  Python source is embedded shallowly:
mutable objects become explicit state records passed and returned,
`raise` becomes `Except`, unbounded `while` loops take an explicit fuel
argument, and Python `dict` objects become association lists.
-/

set_option maxRecDepth 100000

namespace DSL

/-- Lookup in an association list (first binding wins), modelling Python
`dict.get`. -/
def alGet {β : Type} : List (String × β) → String → Option β
  | [], _ => none
  | (k', v') :: rest, k => if k' = k then some v' else alGet rest k

/-- Update in an association list: replace the binding in place if the key is
present, append otherwise, modelling Python `dict[k] = v`. -/
def alSet {β : Type} : List (String × β) → String → β → List (String × β)
  | [], k, v => [(k, v)]
  | (k', v') :: rest, k, v =>
    if k' = k then (k, v) :: rest else (k', v') :: alSet rest k v

/-- Remove a key from an association list, modelling Python `del dict[k]`. -/
def alRemove {β : Type} : List (String × β) → String → List (String × β)
  | [], _ => []
  | (k', v') :: rest, k => if k' = k then rest else (k', v') :: alRemove rest k

/-- Membership test, modelling Python `k in dict`. -/
def alContains {β : Type} (m : List (String × β)) (k : String) : Bool :=
  (alGet m k).isSome

/-- Add an element to a Python `set` modelled as a duplicate-free list. -/
def setInsert (l : List Nat) (x : Nat) : List Nat :=
  if x ∈ l then l else l ++ [x]

/-- `RuntimeEnvironment` (runtime.py lines 3-18): the mutable execution
environment.  Variable values are modelled as strings, which covers every
value the interpreters store there. -/
structure RuntimeEnvironment where
  vars : List (String × String)
  labels : List (String × Nat)
  current_line : Nat
  should_exit : Bool
  last_reply : Option String
  defined_intents : List String
deriving DecidableEq, Repr

/-- A freshly constructed `RuntimeEnvironment` (runtime.py `__init__`). -/
def RuntimeEnvironment.init : RuntimeEnvironment :=
  ⟨[], [], 0, false, none, []⟩

/-- Python `s.startswith('$')`. -/
def startsWithSigil (s : String) : Bool :=
  match s.data with
  | c :: _ => c = '$'
  | [] => false

/-- Strip the optional `$` sigil from a variable name, as done at the top of
`set_variable` and `get_variable` (runtime.py lines 31-32 and 37-38):
`name.startswith('$')` followed by `name[1:]`. -/
def stripSigil (name : String) : String :=
  match name.data with
  | c :: rest => if c = '$' then String.mk rest else name
  | [] => name

/-- `RuntimeEnvironment.set_variable` (runtime.py lines 28-33). -/
def RuntimeEnvironment.set_variable (env : RuntimeEnvironment) (name value : String) :
    RuntimeEnvironment :=
  { env with vars := alSet env.vars (stripSigil name) value }

/-- `RuntimeEnvironment.get_variable` (runtime.py lines 35-39); the caller
supplies Python's `default` via `Option.getD`. -/
def RuntimeEnvironment.get_variable (env : RuntimeEnvironment) (name : String) :
    Option String :=
  alGet env.vars (stripSigil name)

/-- `RuntimeEnvironment.register_label` (runtime.py lines 41-43). -/
def RuntimeEnvironment.register_label (env : RuntimeEnvironment) (name : String)
    (line : Nat) : RuntimeEnvironment :=
  { env with labels := alSet env.labels name line }

/-- `RuntimeEnvironment.jump_to_label` (runtime.py lines 45-50): returns the
Python bool together with the updated environment. -/
def RuntimeEnvironment.jump_to_label (env : RuntimeEnvironment) (name : String) :
    Bool × RuntimeEnvironment :=
  match alGet env.labels name with
  | some line => (true, { env with current_line := line })
  | none => (false, env)

/-- `RuntimeEnvironment.set_reply` (runtime.py lines 52-54). -/
def RuntimeEnvironment.set_reply (env : RuntimeEnvironment) (message : String) :
    RuntimeEnvironment :=
  { env with last_reply := some message }

/-- `RuntimeEnvironment.get_reply` (runtime.py lines 56-60): returns and
clears the pending reply. -/
def RuntimeEnvironment.get_reply (env : RuntimeEnvironment) :
    Option String × RuntimeEnvironment :=
  (env.last_reply, { env with last_reply := none })

/-- `RuntimeEnvironment.reset` (runtime.py lines 62-68): clears `variables`,
`labels`, `current_line`, `should_exit` and `last_reply`.  The Python method
body touches no other field. -/
def RuntimeEnvironment.reset (env : RuntimeEnvironment) : RuntimeEnvironment :=
  { env with
    vars := []
    labels := []
    current_line := 0
    should_exit := false
    last_reply := none }

/-- `RuntimeEnvironment.set_defined_intents` (runtime.py lines 20-22). -/
def RuntimeEnvironment.set_defined_intents (env : RuntimeEnvironment)
    (intents : List String) : RuntimeEnvironment :=
  { env with defined_intents := intents }

/-- `RuntimeEnvironment.get_defined_intents` (runtime.py lines 24-26): the
returned value equals the stored list; the `.copy()` aliasing behaviour is
modelled separately with an explicit heap below. -/
def RuntimeEnvironment.get_defined_intents (env : RuntimeEnvironment) :
    List String :=
  env.defined_intents

/-- AST statement nodes (nodes.py).  `ScriptNode` is a `List ASTNode`. -/
inductive ASTNode where
  | labelDecls (label_names : List String)
  | intents (intent_names : List String)
  | label (name : String)
  | reply (message : String)
  | set (var_name : String) (value : String)
  | get_intent (var_name : String)
  | ifStmt (var_name : String) (compare_value : String) (target_label : String)
  | goto (target_label : String)
  | exitStmt
  | pauseForInput
deriving DecidableEq, Repr

/-- The runtime errors the interpreters can raise (spec section 7 names;
each corresponds to a `raise RuntimeError(...)` in the Python source). -/
inductive DSLError where
  | undefinedVariable (name : String)
  | undefinedLabel (name : String)
  | unregisteredExternalFunction
  | possibleInfiniteLoop
  | unknownNodeType
deriving DecidableEq, Repr

/-- `[a-zA-Z_]`, the first character of the `VARIABLE`/`LABEL` identifier
patterns (lexer.py lines 63-64, better_interpreter.py line 224). -/
def isIdentStart (c : Char) : Bool := c.isAlpha || c = '_'

/-- `[a-zA-Z0-9_]`, the identifier continuation character class. -/
def isIdentChar (c : Char) : Bool := c.isAlpha || c.isDigit || c = '_'

/-- Fuelled scanner behind `findMatches`: each recursive call drops at
least one character, so any fuel above the text length is enough (the
recursion is structural on the fuel so that the kernel can evaluate it). -/
def findMatchesF : Nat → List Char → List (List Char)
  | 0, _ => []
  | _ + 1, [] => []
  | _ + 1, [_] => []
  | fuel + 1, c :: c2 :: cs2 =>
    if c = '$' ∧ isIdentStart c2 then
      let run := cs2.takeWhile isIdentChar
      (c :: c2 :: run) :: findMatchesF fuel (cs2.drop run.length)
    else findMatchesF fuel (c2 :: cs2)

/-- The matches of `re.finditer(r'\$[a-zA-Z_][a-zA-Z0-9_]*', text)` in order:
maximal sigil-plus-identifier runs, scanned left to right without overlap
(better_interpreter.py line 226, interpreter.py line 161). -/
def findMatches (cs : List Char) : List (List Char) :=
  findMatchesF (cs.length + 1) cs

/-- Fuelled scanner behind `replaceAll`; each call consumes at least one
character of `s`. -/
def replaceAllF : Nat → List Char → List Char → List Char → List Char
  | 0, s, _, _ => s
  | _ + 1, [], _, _ => []
  | fuel + 1, c :: rest, pat, rep =>
    if pat ≠ [] ∧ pat.isPrefixOf (c :: rest) then
      rep ++ replaceAllF fuel ((c :: rest).drop pat.length) pat rep
    else c :: replaceAllF fuel rest pat rep

/-- Python `str.replace(pat, rep)`: replace every non-overlapping occurrence
of `pat`, scanning left to right and continuing after each inserted
replacement (the replacement text is not rescanned). -/
def replaceAll (s pat rep : List Char) : List Char :=
  replaceAllF (s.length + 1) s pat rep

/-- The loop body of `_resolve_variables_in_string` (better_interpreter.py
lines 226-229, identically interpreter.py lines 161-164): for each regex
match of the original text, in order, replace all occurrences of the matched
reference in the working result with the variable's value (empty string when
unset, via `get_variable(var_name, "")`). -/
def resolveLoop (vars : List (String × String)) :
    List (List Char) → List Char → List Char
  | [], result => result
  | m :: ms, result =>
    let value := (alGet vars (stripSigil (String.mk m))).getD ""
    resolveLoop vars ms (replaceAll result m value.data)

/-- `Interpreter._resolve_variables_in_string` (better_interpreter.py lines
219-231; the method in interpreter.py lines 154-166 is identical). -/
def resolve_variables_in_string (env : RuntimeEnvironment) (text : String) :
    String :=
  String.mk (resolveLoop env.vars (findMatches text.data) text.data)

/-- Restatement of the same algorithm as a left fold over the match list,
used to characterise `resolve_variables_in_string`. -/
def interpReplaceAllFold (env : RuntimeEnvironment) (text : String) : String :=
  String.mk ((findMatches text.data).foldl
    (fun r m => replaceAll r m ((env.get_variable (String.mk m)).getD "").data)
    text.data)

/-- Modelled from the spec: fuelled core of the interpolation algorithm as
claim C3 states it — one single left-to-right substitution pass over the
template, replacing each sigil-plus-identifier match by the variable's
current value (empty when unset) and never rescanning the substituted
text. -/
def interpSinglePassF (vars : List (String × String)) :
    Nat → List Char → List Char
  | 0, cs => cs
  | _ + 1, [] => []
  | _ + 1, [c] => [c]
  | fuel + 1, c :: c2 :: cs2 =>
    if c = '$' ∧ isIdentStart c2 then
      let run := cs2.takeWhile isIdentChar
      let name := String.mk (c :: c2 :: run)
      ((alGet vars (stripSigil name)).getD "").data
        ++ interpSinglePassF vars fuel (cs2.drop run.length)
    else c :: interpSinglePassF vars fuel (c2 :: cs2)

/-- Modelled from the spec: the claimed single-pass interpolation lifted to
`String`. -/
def interp_single_pass_spec (env : RuntimeEnvironment) (text : String) : String :=
  String.mk (interpSinglePassF env.vars (text.length + 1) text.data)

/-- The mutable fields of better_interpreter.py's `Interpreter` (lines 6-23)
together with its `RuntimeEnvironment`.  `external_functions` keeps only the
registered names: this interpreter never calls a registered function.  Label
cache values are `Int` because `-1` is the predeclared-but-unlocated
sentinel. -/
structure InterpState where
  runtime : RuntimeEnvironment
  external_functions : List String
  has_jumped : Bool
  label_cache : List (String × Int)
  pending_gotos : List (String × List Nat)
  resolved_gotos : List String
  label_statements_processed : List Nat
  execution_paused : Bool
  pause_reason : Option String
deriving DecidableEq, Repr

/-- A freshly constructed `Interpreter` over a fresh environment
(better_interpreter.py `__init__`). -/
def InterpState.init : InterpState :=
  ⟨RuntimeEnvironment.init, [], false, [], [], [], [], false, none⟩

/-- `Interpreter._predeclare_label` (better_interpreter.py lines 156-160):
unconditionally marks the label with the sentinel `-1`. -/
def _predeclare_label (s : InterpState) (label_name : String) : InterpState :=
  { s with label_cache := alSet s.label_cache label_name (-1) }

/-- `Interpreter._define_label` (better_interpreter.py lines 162-176). -/
def _define_label (s : InterpState) (label_name : String) (line_number : Nat) :
    InterpState :=
  if alGet s.label_cache label_name = some (Int.ofNat line_number) then s
  else
    let s := { s with
      label_cache := alSet s.label_cache label_name (Int.ofNat line_number) }
    if alContains s.pending_gotos label_name then
      { s with
        resolved_gotos :=
          if label_name ∈ s.resolved_gotos then s.resolved_gotos
          else s.resolved_gotos ++ [label_name]
        pending_gotos := alRemove s.pending_gotos label_name }
    else s

/-- The `enumerate` loop of `Interpreter._scan_labels`
(better_interpreter.py lines 45-47). -/
def scanLoop : List ASTNode → Nat → InterpState → InterpState
  | [], _, s => s
  | node :: rest, i, s =>
    match node with
    | .label name => scanLoop rest (i + 1) (_define_label s name i)
    | _ => scanLoop rest (i + 1) s

/-- `Interpreter._scan_labels` (better_interpreter.py lines 41-47): clears
the label cache, then records the position of every `Label` statement. -/
def _scan_labels (script : List ASTNode) (s : InterpState) : InterpState :=
  scanLoop script 0 { s with label_cache := [] }

/-- `Interpreter._jump_to_label` (better_interpreter.py lines 178-201).
A jump to a label whose cached position is the `-1` sentinel records a
pending goto and does NOT jump; a jump to an unknown label raises
(`未声明的标签`, the `UndefinedLabel` error). -/
def _jump_to_label (s : InterpState) (label_name : String) (current_line : Nat) :
    Except DSLError Unit × InterpState :=
  match alGet s.label_cache label_name with
  | some target_line =>
    if target_line ≠ -1 then
      let adjusted :=
        if target_line.toNat ∈ s.label_statements_processed then
          target_line + 1
        else target_line
      (.ok (), { s with
        runtime := { s.runtime with current_line := adjusted.toNat }
        has_jumped := true })
    else
      let prev := (alGet s.pending_gotos label_name).getD []
      (.ok (), { s with
        pending_gotos := alSet s.pending_gotos label_name (prev ++ [current_line]) })
  | none => (.error (.undefinedLabel label_name), s)

/-- `Interpreter._execute_node` (better_interpreter.py lines 76-154),
returning the optional reply message.  On error the state at the raise
point is returned alongside, since the Python object keeps all mutations
applied before the `raise`. -/
def _execute_node (node : ASTNode) (current_line : Nat) (s : InterpState) :
    Except DSLError (Option String) × InterpState :=
  let s := { s with has_jumped := false, execution_paused := false }
  match node with
  | .labelDecls label_names =>
    (.ok none, label_names.foldl _predeclare_label s)
  | .intents intent_names =>
    (.ok none, { s with runtime := s.runtime.set_defined_intents intent_names })
  | .label name =>
    let s :=
      if alGet s.label_cache name = none ∨ alGet s.label_cache name = some (-1)
      then _define_label s name current_line
      else s
    (.ok none, { s with
      label_statements_processed :=
        setInsert s.label_statements_processed current_line })
  | .reply msg =>
    let message := resolve_variables_in_string s.runtime msg
    (.ok (some message),
      { s with execution_paused := true, pause_reason := some "reply" })
  | .set var_name value =>
    if startsWithSigil value then
      match s.runtime.get_variable value with
      | none => (.error (.undefinedVariable value), s)
      | some actual =>
        (.ok none, { s with runtime := s.runtime.set_variable var_name actual })
    else (.ok none, { s with runtime := s.runtime.set_variable var_name value })
  | .get_intent _ =>
    (.ok none,
      { s with execution_paused := true, pause_reason := some "get_intent" })
  | .ifStmt var_name compare_value target_label =>
    let var_value := (s.runtime.get_variable var_name).getD ""
    if var_value = compare_value then
      let (r, s') := _jump_to_label s target_label current_line
      match r with
      | .ok _ => (.ok none, s')
      | .error e => (.error e, s')
    else (.ok none, s)
  | .goto target_label =>
    let (r, s') := _jump_to_label s target_label current_line
    match r with
    | .ok _ => (.ok none, s')
    | .error e => (.error e, s')
  | .exitStmt =>
    (.ok none, { s with runtime := { s.runtime with should_exit := true } })
  | .pauseForInput => (.error .unknownNodeType, s)

/-- `Interpreter.execute_script_step` (better_interpreter.py lines 233-244):
run one statement; past the end of the script return `None` untouched;
advance the program counter unless the statement jumped. -/
def execute_script_step (script : List ASTNode) (s : InterpState) :
    Except DSLError (Option String) × InterpState :=
  if h : s.runtime.current_line < script.length then
    let node := script.get ⟨s.runtime.current_line, h⟩
    match _execute_node node s.runtime.current_line s with
    | (.error e, s') => (.error e, s')
    | (.ok result, s') =>
      if s'.has_jumped then (.ok result, s')
      else (.ok result, { s' with
        runtime := { s'.runtime with
          current_line := s'.runtime.current_line + 1 } })
  else (.ok none, s)

/-- `Interpreter.resume_execution` (better_interpreter.py lines 254-257). -/
def resume_execution (s : InterpState) : InterpState :=
  { s with execution_paused := false, pause_reason := none }

/-- The step cap (`max_iterations`, better_interpreter.py line 53). -/
def maxIterations : Nat := 1000

/-- The state preparation at the top of `_execute_script_phase2`
(better_interpreter.py lines 51-52): program counter to 0, exit flag off. -/
def phase2Init (s : InterpState) : InterpState :=
  { s with runtime := { s.runtime with current_line := 0, should_exit := false } }

/-- The reply collection of the driver loops (`if result and
isinstance(result, str): replies.append(result)`): a `None` result or an
empty string (falsy in Python) is not collected. -/
def appendReply (replies : List String) (result : Option String) : List String :=
  match result with
  | some msg => if msg = "" then replies else replies ++ [msg]
  | none => replies

/-- The tail of the phase-2 loop body (better_interpreter.py lines 66-69):
advance the program counter unless a jump happened, and clear the jump
flag. -/
def phase2Advance (s' : InterpState) : InterpState :=
  if s'.has_jumped then { s' with has_jumped := false }
  else { s' with runtime := { s'.runtime with
    current_line := s'.runtime.current_line + 1 } }

/-- The `while` loop of `_execute_script_phase2` (better_interpreter.py
lines 56-74); `fuel` is `max_iterations - iteration_count`.  When the fuel
runs out the final `iteration_count >= max_iterations` check raises
`PossibleInfiniteLoop`; the state reached so far is returned alongside, as
the Python runtime object keeps every mutation already applied. -/
def phase2Loop (script : List ASTNode) :
    Nat → InterpState → List String → Except DSLError (List String) × InterpState
  | 0, s, _ => (.error .possibleInfiniteLoop, s)
  | fuel + 1, s, replies =>
    if h : s.runtime.current_line < script.length ∧ s.runtime.should_exit = false
    then
      let node := script.get ⟨s.runtime.current_line, h.1⟩
      match _execute_node node s.runtime.current_line s with
      | (.error e, s') => (.error e, s')
      | (.ok result, s') =>
        phase2Loop script fuel (phase2Advance s') (appendReply replies result)
    else (.ok replies, s)

/-- `Interpreter._execute_script_phase2` (better_interpreter.py lines
49-74). -/
def _execute_script_phase2 (script : List ASTNode) (s : InterpState) :
    Except DSLError (List String) × InterpState :=
  phase2Loop script maxIterations (phase2Init s) []

/-- `Interpreter.execute_script` (better_interpreter.py lines 30-39):
prescan the labels, then run phase 2. -/
def execute_script (script : List ASTNode) (s : InterpState) :
    Except DSLError (List String) × InterpState :=
  _execute_script_phase2 script (_scan_labels script s)

/-- One successful iteration of the phase-2 loop body (used to quantify
over executions that keep running): `none` when the loop condition fails or
the statement raises. -/
def phase2Step (script : List ASTNode) (s : InterpState) : Option InterpState :=
  if h : s.runtime.current_line < script.length ∧ s.runtime.should_exit = false
  then
    let node := script.get ⟨s.runtime.current_line, h.1⟩
    match _execute_node node s.runtime.current_line s with
    | (.error _, _) => none
    | (.ok _, s') => some (phase2Advance s')
  else none

/-- `n` successful iterations of the phase-2 loop body. -/
def phase2Iterate (script : List ASTNode) : Nat → InterpState → Option InterpState
  | 0, s => some s
  | n + 1, s =>
    match phase2Step script s with
    | some s' => phase2Iterate script n s'
    | none => none

/-- The `while` loop of `DSLController._execute_script`
(main_controller.py lines 319-333): step until the script ends, the exit
flag is set, the interpreter pauses, or a statement raises.  This loop has
no iteration cap, so it takes an explicit fuel argument; `none` means the
fuel was exhausted with the loop still running. -/
def turnLoop (script : List ASTNode) :
    Nat → InterpState → List String →
      Option (Except DSLError (List String) × InterpState)
  | 0, _, _ => none
  | fuel + 1, s, replies =>
    if s.runtime.current_line < script.length ∧ s.runtime.should_exit = false
    then
      match execute_script_step script s with
      | (.error e, s') => some (.error e, s')
      | (.ok result, s') =>
        if s'.execution_paused then some (.ok (appendReply replies result), s')
        else turnLoop script fuel s' (appendReply replies result)
    else some (.ok replies, s)

/-- `DSLController._execute_script` (main_controller.py lines 305-346):
clear the paused state, drive the interpreter one step at a time, and on
any exception return the generic apology message.  Note that no label
prescan is performed anywhere on this path. -/
def controller_execute_script (script : List ASTNode) (fuel : Nat)
    (s : InterpState) : Option (List String × InterpState) :=
  match turnLoop script fuel (resume_execution s) [] with
  | some (.ok replies, s') => some (replies, s')
  | some (.error _, s') => some (["抱歉，系统出现错误，请稍后再试。"], s')
  | none => none

/-- The state of the legacy `Interpreter` (interpreter.py lines 6-17): the
runtime plus the registered `get_intent` hook (interpreter.py line 96 calls
it with the input text and the defined intents) and the jump flag. -/
structure OldInterpState where
  runtime : RuntimeEnvironment
  get_intent_hook : Option (String → List String → String)
  has_jumped : Bool

/-- The legacy `Interpreter._execute_node` (interpreter.py lines 77-152).
Replies go through `runtime.set_reply`; a `GetIntent` with no registered
hook raises (`get_intent function not registered`, the
`UnregisteredExternalFunction` error); jumps resolve through
`runtime.jump_to_label` and raise `UndefinedLabel` on failure. -/
def old_execute_node (node : ASTNode) (s : OldInterpState) :
    Except DSLError Unit × OldInterpState :=
  let s := { s with has_jumped := false }
  match node with
  | .label _ => (.ok (), s)
  | .intents _ => (.ok (), s)
  | .get_intent var_name =>
    match s.get_intent_hook with
    | some hook =>
      let input_text := (s.runtime.get_variable var_name).getD ""
      let defined_intents := s.runtime.get_defined_intents
      let intent := hook input_text defined_intents
      (.ok (), { s with runtime := s.runtime.set_variable "intent" intent })
    | none => (.error .unregisteredExternalFunction, s)
  | .reply msg =>
    let message := resolve_variables_in_string s.runtime msg
    (.ok (), { s with runtime := s.runtime.set_reply message })
  | .set var_name value =>
    if startsWithSigil value then
      match s.runtime.get_variable value with
      | none => (.error (.undefinedVariable value), s)
      | some actual =>
        (.ok (), { s with runtime := s.runtime.set_variable var_name actual })
    else (.ok (), { s with runtime := s.runtime.set_variable var_name value })
  | .ifStmt var_name compare_value target_label =>
    let var_value := (s.runtime.get_variable var_name).getD ""
    if var_value = compare_value then
      match s.runtime.jump_to_label target_label with
      | (true, rt) => (.ok (), { s with runtime := rt, has_jumped := true })
      | (false, _) => (.error (.undefinedLabel target_label), s)
    else (.ok (), s)
  | .goto target_label =>
    match s.runtime.jump_to_label target_label with
    | (true, rt) => (.ok (), { s with runtime := rt, has_jumped := true })
    | (false, _) => (.error (.undefinedLabel target_label), s)
  | .exitStmt =>
    (.ok (), { s with runtime := { s.runtime with should_exit := true } })
  | .labelDecls _ => (.error .unknownNodeType, s)
  | .pauseForInput => (.error .unknownNodeType, s)

/-- Token kinds (lexer.py `TokenType`, lines 6-26). -/
inductive TokType where
  | INTENTS
  | LABELS
  | REPLY
  | SET
  | GET_INTENT
  | PAUSE_FOR_INPUT
  | IF
  | THEN
  | GOTO
  | EQUALS
  | LBRACE
  | RBRACE
  | COMMA
  | STRING
  | VARIABLE
  | LABEL
  | COLON
  | NEWLINE
  | EXIT
  | EOF
deriving DecidableEq, Repr

/-- `Token` (lexer.py lines 28-33); `value` kept as a character list. -/
structure LexToken where
  type : TokType
  value : List Char
  line : Nat
  column : Nat
deriving DecidableEq, Repr

/-- The fixed-text patterns preceding `STRING` in `Lexer.token_specs`
(lexer.py lines 48-61), in alternation order.  `SKIP` and `COMMENT` are
excluded from the compiled pattern (line 74). -/
def fixedSpecs1 : List (TokType × List Char) :=
  [(.INTENTS, "intents".data),
   (.LABELS, "labels".data),
   (.REPLY, "reply".data),
   (.SET, "set".data),
   (.GET_INTENT, "get_intent".data),
   (.PAUSE_FOR_INPUT, "pause_for_user_input".data),
   (.IF, "if".data),
   (.THEN, "then".data),
   (.GOTO, "goto".data),
   (.EQUALS, "==".data),
   (.LBRACE, ['\x7b']),
   (.RBRACE, ['\x7d']),
   (.COMMA, ",".data)]

/-- The fixed-text patterns following `LABEL` in `Lexer.token_specs`
(lexer.py lines 65-67), in alternation order. -/
def fixedSpecs2 : List (TokType × List Char) :=
  [(.COLON, ":".data),
   (.NEWLINE, ['\n']),
   (.EXIT, "exit".data)]

/-- Try each fixed-text alternative in order; Python's `re` alternation
takes the first alternative that matches at the position. -/
def matchFixed : List (TokType × List Char) → List Char →
    Option (TokType × List Char × List Char)
  | [], _ => none
  | (t, kw) :: rest, cs =>
    if kw.isPrefixOf cs then some (t, kw, cs.drop kw.length)
    else matchFixed rest cs

/-- The `STRING` pattern `\"[^\"]*\"` (lexer.py line 62): an opening quote,
then every character up to the next quote — including newlines — then the
closing quote.  Returns the raw matched text (quotes included) and the
rest. -/
def matchStringLit : List Char → Option (List Char × List Char)
  | [] => none
  | c0 :: rest =>
    if c0 = '"' then
      let content := rest.takeWhile (· ≠ '"')
      match rest.drop content.length with
      | [] => none
      | c1 :: tail =>
        if c1 = '"' then some (c0 :: (content ++ [c1]), tail) else none
    else none

/-- The `VARIABLE` pattern `\$[a-zA-Z_][a-zA-Z0-9_]*` (lexer.py line 63). -/
def matchVariable : List Char → Option (List Char × List Char)
  | c0 :: c :: cs =>
    if c0 = '$' ∧ isIdentStart c then
      let run := cs.takeWhile isIdentChar
      some (c0 :: c :: run, cs.drop run.length)
    else none
  | _ => none

/-- The `LABEL` pattern `[a-zA-Z_][a-zA-Z0-9_]*:` (lexer.py line 64): a
maximal identifier immediately followed by a colon. -/
def matchLabelTok : List Char → Option (List Char × List Char)
  | [] => none
  | c :: cs =>
    if isIdentStart c then
      let run := cs.takeWhile isIdentChar
      match cs.drop run.length with
      | [] => none
      | c1 :: tail => if c1 = ':' then some (c :: (run ++ [c1]), tail) else none
    else none

/-- One attempt of the compiled alternation `self.pattern.match` at the
current position (lexer.py line 95), in `token_specs` order. -/
def tryMatch (cs : List Char) : Option (TokType × List Char × List Char) :=
  match matchFixed fixedSpecs1 cs with
  | some r => some r
  | none =>
    match matchStringLit cs with
    | some (raw, rest) => some (.STRING, raw, rest)
    | none =>
      match matchVariable cs with
      | some (raw, rest) => some (.VARIABLE, raw, rest)
      | none =>
        match matchLabelTok cs with
        | some (raw, rest) => some (.LABEL, raw, rest)
        | none => matchFixed fixedSpecs2 cs

/-- The post-processing of a raw match into the token's stored text
(lexer.py lines 100-105): strings lose their quotes, labels lose the
trailing colon. -/
def tokValue (t : TokType) (raw : List Char) : List Char :=
  if t = .STRING then (raw.drop 1).dropLast
  else if t = .LABEL then raw.dropLast
  else raw

/-- The `while` loop of `Lexer.tokenize` (lexer.py lines 83-124): skip
spaces/tabs and comments, otherwise match one token; `none` models the
`SyntaxError` for an unknown character (the fuel, one unit per loop
iteration, never runs out on inputs where tokenization succeeds). -/
def tokenizeLoop : Nat → List Char → Nat → Nat → List LexToken →
    Option (List LexToken)
  | 0, _, _, _, _ => none
  | fuel + 1, cs, line, col, acc =>
    match cs with
    | [] => some (acc ++ [⟨.EOF, [], line, col⟩])
    | c :: rest =>
      if c = ' ' ∨ c = '\t' then tokenizeLoop fuel rest line col acc
      else if c = '#' then
        tokenizeLoop fuel ((c :: rest).dropWhile (· ≠ '\n')) line col acc
      else
        match tryMatch (c :: rest) with
        | some (t, raw, rest') =>
          let value := tokValue t raw
          let tok : LexToken := ⟨t, value, line, col⟩
          if t = .NEWLINE then
            tokenizeLoop fuel rest' (line + 1) 1 (acc ++ [tok])
          else
            tokenizeLoop fuel rest' line (col + value.length) (acc ++ [tok])
        | none => none

/-- `Lexer.tokenize` (lexer.py lines 77-124). -/
def tokenize (source : String) : Option (List LexToken) :=
  tokenizeLoop (source.length + 1) source.data 1 1 []

/-- A heap of Python list objects, used to model the reference/aliasing
behaviour of `RuntimeEnvironment.get_defined_intents` (runtime.py line 26
returns `self.defined_intents.copy()`).  Cells are addressed by index. -/
structure ListHeap where
  cells : List (List String)
deriving DecidableEq, Repr

/-- Read the list object at a reference. -/
def ListHeap.read (h : ListHeap) (r : Nat) : List String :=
  (h.cells.get? r).getD []

/-- Allocate a fresh list object, returning the new heap and the fresh
reference. -/
def ListHeap.alloc (h : ListHeap) (v : List String) : ListHeap × Nat :=
  (⟨h.cells ++ [v]⟩, h.cells.length)

/-- In-place `list.append` on the object at reference `r`. -/
def ListHeap.appendAt (h : ListHeap) (r : Nat) (x : String) : ListHeap :=
  ⟨h.cells.set r (h.read r ++ [x])⟩

/-- `RuntimeEnvironment` with the `defined_intents` field held by
reference, for reasoning about aliasing. -/
structure RuntimeEnvironmentRef where
  vars : List (String × String)
  labels : List (String × Nat)
  current_line : Nat
  should_exit : Bool
  last_reply : Option String
  defined_intents_ref : Nat
deriving DecidableEq, Repr

/-- `RuntimeEnvironment.get_defined_intents` (runtime.py lines 24-26) in
the heap model: `self.defined_intents.copy()` allocates a fresh list with
the same contents and returns a reference to it; the environment itself is
read but not written. -/
def get_defined_intents_ref (h : ListHeap) (e : RuntimeEnvironmentRef) :
    ListHeap × RuntimeEnvironmentRef × Nat :=
  let (h', r) := h.alloc (h.read e.defined_intents_ref)
  (h', e, r)

/-- The last index at which `Label L` occurs in a statement list: the
binding `_scan_labels` leaves in the cache when the label is defined more
than once (later definitions overwrite earlier ones). -/
def lastLabelIdx (L : String) : List ASTNode → Option Nat
  | [] => none
  | node :: rest =>
    match lastLabelIdx L rest with
    | some k => some (k + 1)
    | none => if node = ASTNode.label L then some 0 else none

/-- Whether an `Except` result is a success. -/
def exceptIsOk {ε α : Type} : Except ε α → Bool
  | .ok _ => true
  | .error _ => false

instance {ε α : Type} [DecidableEq ε] [DecidableEq α] :
    DecidableEq (Except ε α) := fun x y =>
  match x, y with
  | .ok a, .ok b =>
    if h : a = b then .isTrue (congrArg Except.ok h)
    else .isFalse (fun hc => h (Except.ok.inj hc))
  | .error a, .error b =>
    if h : a = b then .isTrue (congrArg Except.error h)
    else .isFalse (fun hc => h (Except.error.inj hc))
  | .ok _, .error _ => .isFalse (fun hc => Except.noConfusion hc)
  | .error _, .ok _ => .isFalse (fun hc => Except.noConfusion hc)

/-- Fixture: a script whose only statement is a pausing `Reply`. -/
def replyScript : List ASTNode := [.reply "Hi"]

/-- Fixture: spec scenario 2 — a forward `goto` over an `exit` to a label
defined later. -/
def fwdScript : List ASTNode := [.goto "L", .exitStmt, .label "L", .reply "ok"]

/-- Fixture: bindings with one variable reference a prefix of another. -/
def envC3 : RuntimeEnvironment :=
  { RuntimeEnvironment.init with vars := [("a", "X"), ("ab", "Y")] }

/-- Fixture: spec scenario 6 — `loop: goto loop` with no `exit`. -/
def loopScript : List ASTNode := [.label "loop", .goto "loop"]

/-- Fixture: the interpreter state after 1000 phase-2 iterations of
`loopScript` from a fresh session. -/
def loopFinal : InterpState :=
  ⟨⟨[], [], 1, false, none, []⟩, [], false, [("loop", 0)], [], [], [0], false, none⟩

/-- Fixture: a jump to a label that is never declared and never defined. -/
def gotoMissingScript : List ASTNode := [.goto "missing"]

/-- Fixture: a `get_intent` statement followed by a reply. -/
def giScript : List ASTNode := [.get_intent "$user_input", .reply "done"]

/-- Fixture: an environment with state in every resettable field and a
stored declared-intents list. -/
def envC7 : RuntimeEnvironment :=
  { vars := [("name", "Bob")]
    labels := [("start", 3)]
    current_line := 7
    should_exit := true
    last_reply := some "Hi"
    defined_intents := ["query_price", "add_to_cart"] }

/-- Fixture: the token list for the two-line source `reply "hi"\nexit`. -/
def tokListC8 : List LexToken :=
  [⟨.REPLY, "reply".data, 1, 1⟩,
   ⟨.STRING, "hi".data, 1, 6⟩,
   ⟨.NEWLINE, ['\n'], 1, 8⟩,
   ⟨.EXIT, "exit".data, 2, 1⟩,
   ⟨.EOF, [], 2, 5⟩]

/-- Fixture: a two-cell heap and an environment whose intents live in
cell 0. -/
def heapC9 : ListHeap := ⟨[["query_price"], ["other"]]⟩

/-- Fixture: the environment-by-reference for `heapC9`. -/
def envRefC9 : RuntimeEnvironmentRef := ⟨[], [], 0, false, none, 0⟩

/-- Fixture: an interpreter whose program counter is past the end of a
one-statement script. -/
def stateC10 : InterpState :=
  { InterpState.init with
    runtime := { RuntimeEnvironment.init with current_line := 5 } }

theorem alGet_alSet_self {β : Type} (m : List (String × β)) (k : String) (v : β) :
    alGet (alSet m k v) k = some v := by
  induction m with
  | nil => simp [alGet, alSet]
  | cons p rest ih =>
    rcases p with ⟨k', v'⟩
    by_cases h : k' = k <;> simp [alGet, alSet, h, ih]

theorem alGet_alSet_ne {β : Type} (m : List (String × β)) (k k' : String) (v : β)
    (h : k ≠ k') : alGet (alSet m k v) k' = alGet m k' := by
  induction m with
  | nil => simp [alGet, alSet, h]
  | cons p rest ih =>
    rcases p with ⟨k0, v0⟩
    by_cases h0 : k0 = k
    · subst h0; simp [alGet, alSet, h]
    · simp only [alSet, if_neg h0, alGet]
      by_cases h1 : k0 = k' <;> simp [h1, ih]

theorem alGet_define_label_self (s : InterpState) (L : String) (i : Nat) :
    alGet (_define_label s L i).label_cache L = some (Int.ofNat i) := by
  unfold _define_label
  by_cases h1 : alGet s.label_cache L = some (Int.ofNat i)
  · rw [if_pos h1]
    exact h1
  · rw [if_neg h1]
    dsimp only
    by_cases h2 : alContains s.pending_gotos L = true
    · rw [if_pos h2]
      exact alGet_alSet_self _ _ _
    · rw [if_neg h2]
      exact alGet_alSet_self _ _ _

theorem alGet_define_label_ne (s : InterpState) (L M : String) (i : Nat)
    (h : M ≠ L) :
    alGet (_define_label s M i).label_cache L = alGet s.label_cache L := by
  unfold _define_label
  by_cases h1 : alGet s.label_cache M = some (Int.ofNat i)
  · rw [if_pos h1]
  · rw [if_neg h1]
    dsimp only
    by_cases h2 : alContains s.pending_gotos M = true
    · rw [if_pos h2]
      exact alGet_alSet_ne _ _ _ _ h
    · rw [if_neg h2]
      exact alGet_alSet_ne _ _ _ _ h

theorem scanLoop_lookup (L : String) :
    ∀ (stmts : List ASTNode) (i0 : Nat) (s : InterpState),
    alGet (scanLoop stmts i0 s).label_cache L =
      (match lastLabelIdx L stmts with
       | some k => some (Int.ofNat (i0 + k))
       | none => alGet s.label_cache L) := by
  intro stmts
  induction stmts with
  | nil => intro i0 s; rfl
  | cons node rest ih =>
    intro i0 s
    cases hrest : lastLabelIdx L rest with
    | some k =>
      cases node <;> simp_all [scanLoop, lastLabelIdx] <;> omega
    | none =>
      cases node with
      | label name =>
        by_cases hL : name = L
        · subst hL
          simp [scanLoop, lastLabelIdx, hrest, ih, alGet_define_label_self]
        · simp [scanLoop, lastLabelIdx, hrest, ih, alGet_define_label_ne _ _ _ _ hL,
            hL]
      | labelDecls names => simp [scanLoop, lastLabelIdx, hrest, ih]
      | intents names => simp [scanLoop, lastLabelIdx, hrest, ih]
      | reply m => simp [scanLoop, lastLabelIdx, hrest, ih]
      | set a b => simp [scanLoop, lastLabelIdx, hrest, ih]
      | get_intent v => simp [scanLoop, lastLabelIdx, hrest, ih]
      | ifStmt a b c => simp [scanLoop, lastLabelIdx, hrest, ih]
      | goto t => simp [scanLoop, lastLabelIdx, hrest, ih]
      | exitStmt => simp [scanLoop, lastLabelIdx, hrest, ih]
      | pauseForInput => simp [scanLoop, lastLabelIdx, hrest, ih]

theorem lastLabelIdx_get? (L : String) :
    ∀ (stmts : List ASTNode) (j : Nat),
    lastLabelIdx L stmts = some j → stmts.get? j = some (ASTNode.label L) := by
  intro stmts
  induction stmts with
  | nil => intro j h; simp [lastLabelIdx] at h
  | cons node rest ih =>
    intro j h
    rw [lastLabelIdx] at h
    cases hrest : lastLabelIdx L rest with
    | some k =>
      rw [hrest] at h
      injection h with h
      subst h
      simpa using ih k hrest
    | none =>
      rw [hrest] at h
      by_cases hnode : node = ASTNode.label L
      · rw [if_pos hnode] at h
        injection h with h
        subst h
        simp [hnode]
      · rw [if_neg hnode] at h
        cases h

theorem resolveLoop_eq_foldl (vars : List (String × String)) :
    ∀ (ms : List (List Char)) (r : List Char),
    resolveLoop vars ms r =
      ms.foldl (fun r m =>
        replaceAll r m ((alGet vars (stripSigil (String.mk m))).getD "").data) r := by
  intro ms
  induction ms with
  | nil => intro r; rfl
  | cons m ms ih => intro r; simp only [resolveLoop, List.foldl]; exact ih _

/-- Claim C10: when the program counter is at or past the end of the
script, `execute_script_step` returns no output and leaves the whole
interpreter state unchanged — the early bounds check fires before any
statement is indexed or executed. -/
theorem C10_step_past_end (script : List ASTNode) (s : InterpState)
    (h : script.length ≤ s.runtime.current_line) :
    execute_script_step script s = (.ok none, s) := by
  have hn : ¬ s.runtime.current_line < script.length := by omega
  simp [execute_script_step, hn]

theorem C10_step_past_end_witness :
    [ASTNode.exitStmt].length ≤ stateC10.runtime.current_line ∧
    execute_script_step [ASTNode.exitStmt] stateC10 = (.ok none, stateC10) :=
  ⟨by decide, C10_step_past_end [ASTNode.exitStmt] stateC10 (by decide)⟩

/-- Claim C7 (amended): `RuntimeEnvironment.reset` clears the variable
map, the label table, the program counter, the termination flag and the
pending-output slot, but the stored declared-intents list is left
untouched and survives the reset. -/
theorem C7_reset_keeps_defined_intents (env : RuntimeEnvironment) :
    env.reset =
      { RuntimeEnvironment.init with defined_intents := env.defined_intents } :=
  rfl

/-- Claim C7 counterexample: `reset` does not restore the freshly-created
state — the stored declared-intents list survives, so a reset environment
differs from a fresh one. -/
theorem C7_counterexample :
    envC7.reset ≠ RuntimeEnvironment.init ∧
    envC7.reset.defined_intents = ["query_price", "add_to_cart"] ∧
    RuntimeEnvironment.init.defined_intents = [] := by decide

/-- Claim C1 (amended): executing one step at a `Reply` or `GetIntent`
statement pauses (the paused flag is set with reason `reply` resp.
`get_intent`) but ADVANCES the program counter by one past the pausing
statement; clearing the pause with `resume_execution` leaves the counter
there, so resumption continues at the statement AFTER the pausing one,
not at the same unmoved counter. -/
theorem C1_pause_advances (script : List ASTNode) (s : InterpState)
    (stmt : ASTNode)
    (hget : script.get? s.runtime.current_line = some stmt)
    (hpause : (∃ msg, stmt = ASTNode.reply msg) ∨
      ∃ v, stmt = ASTNode.get_intent v) :
    exceptIsOk (execute_script_step script s).1 = true ∧
    (execute_script_step script s).2.execution_paused = true ∧
    (execute_script_step script s).2.pause_reason =
      some (match stmt with
            | ASTNode.reply _ => "reply"
            | _ => "get_intent") ∧
    (execute_script_step script s).2.runtime.current_line =
      s.runtime.current_line + 1 ∧
    (resume_execution (execute_script_step script s).2).runtime.current_line =
      s.runtime.current_line + 1 := by
  have hlt : s.runtime.current_line < script.length :=
    (List.get?_eq_some.mp hget).1
  have hElem : script[s.runtime.current_line] = stmt := by
    rw [List.get?_eq_getElem?, List.getElem?_eq_getElem hlt] at hget
    exact Option.some.inj hget
  rcases hpause with ⟨msg, rfl⟩ | ⟨v, rfl⟩ <;>
    simp [execute_script_step, hlt, hElem, _execute_node, resume_execution,
      exceptIsOk]

theorem C1_pause_advances_witness :
    exceptIsOk (execute_script_step replyScript InterpState.init).1 = true ∧
    (execute_script_step replyScript InterpState.init).2.execution_paused = true ∧
    (execute_script_step replyScript InterpState.init).2.pause_reason =
      some "reply" ∧
    (execute_script_step replyScript InterpState.init).2.runtime.current_line =
      InterpState.init.runtime.current_line + 1 ∧
    (resume_execution
        (execute_script_step replyScript InterpState.init).2).runtime.current_line =
      InterpState.init.runtime.current_line + 1 :=
  C1_pause_advances replyScript InterpState.init (ASTNode.reply "Hi") (by decide)
    (Or.inl ⟨"Hi", rfl⟩)

/-- Claim C1 counterexample: stepping a `Reply` does pause, but the
program counter does NOT stay at the pausing statement — from counter 0 it
moves to 1, and resuming continues at 1. -/
theorem C1_counterexample :
    (execute_script_step replyScript InterpState.init).2.execution_paused =
      true ∧
    (execute_script_step replyScript InterpState.init).2.runtime.current_line =
      1 ∧
    ¬ (execute_script_step replyScript InterpState.init).2.runtime.current_line
      = 0 := by decide

/-- Claim C5: executing a `Goto` (or an `If` whose comparison holds) whose
target label is never declared and never defined (absent from the label
cache) fails with the `UndefinedLabel` error rather than falling through. -/
theorem C5_undefined_label_error (script : List ASTNode) (s : InterpState)
    (stmt : ASTNode) (L : String)
    (hget : script.get? s.runtime.current_line = some stmt)
    (hstmt : stmt = ASTNode.goto L ∨
      ∃ v cmp, stmt = ASTNode.ifStmt v cmp L ∧
        (s.runtime.get_variable v).getD "" = cmp)
    (hundef : alGet s.label_cache L = none) :
    (execute_script_step script s).1 = .error (.undefinedLabel L) := by
  have hlt : s.runtime.current_line < script.length :=
    (List.get?_eq_some.mp hget).1
  have hElem : script[s.runtime.current_line] = stmt := by
    rw [List.get?_eq_getElem?, List.getElem?_eq_getElem hlt] at hget
    exact Option.some.inj hget
  rcases hstmt with rfl | ⟨v, cmp, rfl, hcmp⟩
  · simp [execute_script_step, hlt, hElem, _execute_node, _jump_to_label, hundef]
  · simp [execute_script_step, hlt, hElem, _execute_node, _jump_to_label, hundef,
      hcmp]

theorem C5_undefined_label_error_witness :
    (execute_script_step gotoMissingScript InterpState.init).1 =
      .error (.undefinedLabel "missing") :=
  C5_undefined_label_error gotoMissingScript InterpState.init
    (ASTNode.goto "missing") "missing" (by decide) (Or.inl rfl) (by decide)

/-- Claim C6 (amended): in the legacy interpreter (interpreter.py),
executing a `GetIntent` with no registered classification hook fails hard
with `UnregisteredExternalFunction`; the stepping interpreter
(better_interpreter.py) never consults the hook at all — see the
counterexample. -/
theorem C6_legacy_unregistered_hook (s : OldInterpState) (v : String)
    (h : s.get_intent_hook = none) :
    old_execute_node (ASTNode.get_intent v) s =
      (.error .unregisteredExternalFunction, { s with has_jumped := false }) := by
  simp [old_execute_node, h]

theorem C6_legacy_unregistered_hook_witness :
    old_execute_node (ASTNode.get_intent "$user_input")
        ⟨RuntimeEnvironment.init, none, false⟩ =
      (.error .unregisteredExternalFunction,
        ⟨RuntimeEnvironment.init, none, false⟩) :=
  C6_legacy_unregistered_hook ⟨RuntimeEnvironment.init, none, false⟩
    "$user_input" rfl

/-- Claim C6 counterexample: in the stepping interpreter a session with NO
registered hook executes `get_intent`, pauses, is resumed, and continues
past it — no `UnregisteredExternalFunction` (and no other error) is ever
raised, a silent no-op of the unregistered hook. -/
theorem C6_counterexample :
    (execute_script_step giScript InterpState.init).1 = .ok none ∧
    (execute_script_step giScript InterpState.init).2.execution_paused = true ∧
    (execute_script_step giScript InterpState.init).2.pause_reason =
      some "get_intent" ∧
    (execute_script_step giScript
        (resume_execution (execute_script_step giScript InterpState.init).2)).1 =
      .ok (some "done") := by decide

/-- Claim C9: `get_defined_intents` returns a reference to a freshly
copied list, so the environment record is returned unchanged, the copy has
the stored contents, and appending to the copy leaves the stored
declared-intents cell unchanged. -/
theorem C9_get_defined_intents_is_copy (h : ListHeap)
    (e : RuntimeEnvironmentRef) (x : String)
    (hv : e.defined_intents_ref < h.cells.length) :
    (get_defined_intents_ref h e).2.1 = e ∧
    (get_defined_intents_ref h e).2.2 ≠ e.defined_intents_ref ∧
    (get_defined_intents_ref h e).1.read (get_defined_intents_ref h e).2.2 =
      h.read e.defined_intents_ref ∧
    ((get_defined_intents_ref h e).1.appendAt
        (get_defined_intents_ref h e).2.2 x).read e.defined_intents_ref =
      h.read e.defined_intents_ref := by
  refine ⟨rfl, ?_, ?_, ?_⟩
  · simp only [get_defined_intents_ref, ListHeap.alloc]
    omega
  · simp only [get_defined_intents_ref, ListHeap.alloc, ListHeap.read]
    rw [List.get?_concat_length]
    rfl
  · simp only [get_defined_intents_ref, ListHeap.alloc, ListHeap.read,
      ListHeap.appendAt]
    rw [List.get?_set_ne _ _ (by omega), List.get?_append hv]

theorem C9_get_defined_intents_is_copy_witness :
    envRefC9.defined_intents_ref < heapC9.cells.length ∧
    ((get_defined_intents_ref heapC9 envRefC9).2.1 = envRefC9 ∧
     (get_defined_intents_ref heapC9 envRefC9).2.2 ≠
       envRefC9.defined_intents_ref ∧
     (get_defined_intents_ref heapC9 envRefC9).1.read
         (get_defined_intents_ref heapC9 envRefC9).2.2 =
       heapC9.read envRefC9.defined_intents_ref ∧
     ((get_defined_intents_ref heapC9 envRefC9).1.appendAt
         (get_defined_intents_ref heapC9 envRefC9).2.2 "mutated").read
         envRefC9.defined_intents_ref =
       heapC9.read envRefC9.defined_intents_ref) :=
  ⟨by decide, C9_get_defined_intents_is_copy heapC9 envRefC9 "mutated" (by decide)⟩

/-- Claim C3 (amended): interpolation walks the matches of the original
template left to right, and for each match replaces EVERY occurrence of
that matched reference text in the working result string (so a
substitution can rewrite prefixes of longer references or earlier-inserted
text); a variable that has never been set interpolates to the empty
string. -/
theorem C3_interpolation_replace_all (env : RuntimeEnvironment)
    (text : String) :
    resolve_variables_in_string env text = interpReplaceAllFold env text := by
  unfold resolve_variables_in_string interpReplaceAllFold
    RuntimeEnvironment.get_variable
  rw [resolveLoop_eq_foldl]

/-- Claim C3 counterexample: with `a = "X"` and `ab = "Y"`, the code turns
`$a $ab` into `X Xb` (the replace-all of `$a` also rewrites the prefix of
`$ab`), while the claimed single left-to-right pass over the matches gives
`X Y`. -/
theorem C3_counterexample :
    resolve_variables_in_string envC3 "$a $ab" = "X Xb" ∧
    interp_single_pass_spec envC3 "$a $ab" = "X Y" ∧
    resolve_variables_in_string envC3 "$a $ab" ≠
      interp_single_pass_spec envC3 "$a $ab" := by decide

theorem phase2Loop_of_iterate (script : List ASTNode) :
    ∀ (fuel : Nat) (s s' : InterpState) (replies : List String),
    phase2Iterate script fuel s = some s' →
    phase2Loop script fuel s replies = (.error .possibleInfiniteLoop, s') := by
  intro fuel
  induction fuel with
  | zero =>
    intro s s' replies h
    rw [phase2Iterate] at h
    injection h with h
    subst h
    rfl
  | succ n ih =>
    intro s s' replies h
    rw [phase2Iterate] at h
    by_cases hc : s.runtime.current_line < script.length ∧
      s.runtime.should_exit = false
    · rcases he : _execute_node (script.get ⟨s.runtime.current_line, hc.1⟩)
        s.runtime.current_line s with ⟨r, s2⟩
      cases r with
      | error e =>
        have hstep : phase2Step script s = none := by
          simp only [phase2Step]
          rw [dif_pos hc, he]
        rw [hstep] at h
        simp at h
      | ok result =>
        have hstep : phase2Step script s = some (phase2Advance s2) := by
          simp only [phase2Step]
          rw [dif_pos hc, he]
        rw [hstep] at h
        simp only [phase2Loop]
        rw [dif_pos hc, he]
        exact ih _ _ _ h
    · have hstep : phase2Step script s = none := by
        simp only [phase2Step]
        rw [dif_neg hc]
      rw [hstep] at h
      simp at h

/-- Claim C4 (amended): the batch executor `_execute_script_phase2` (run by
`execute_script`) enforces the 1000-step cap: whenever the loop body
completes 1000 iterations without ending, exiting or raising — as a goto
cycle with no `Exit` does — it aborts with `PossibleInfiniteLoop`, and the
state reached by those iterations (including every variable mutation) is
kept, with no rollback.  The step-driven controller turn has no such cap —
see the counterexample. -/
theorem C4_phase2_step_cap (script : List ASTNode) (s s' : InterpState)
    (h : phase2Iterate script maxIterations (phase2Init s) = some s') :
    _execute_script_phase2 script s = (.error .possibleInfiniteLoop, s') :=
  phase2Loop_of_iterate script maxIterations (phase2Init s) s' [] h

theorem C4_phase2_step_cap_witness :
    phase2Iterate loopScript maxIterations (phase2Init InterpState.init) =
      some loopFinal ∧
    _execute_script_phase2 loopScript InterpState.init =
      (.error .possibleInfiniteLoop, loopFinal) :=
  ⟨by decide, C4_phase2_step_cap loopScript InterpState.init loopFinal (by decide)⟩

/-- Claim C4 counterexample: the step-driven turn
(`DSLController._execute_script`) has no step cap: on `loop: goto loop`
it is still running after 2000 iterations — double the claimed 1000-step
cap — and never aborts with `PossibleInfiniteLoop`. -/
theorem C4_counterexample :
    turnLoop loopScript 2000 (resume_execution InterpState.init) [] = none ∧
    controller_execute_script loopScript 2000 InterpState.init = none := by
  decide

/-- Claim C2 (amended): after the prescan (`_scan_labels`, run only by the
batch entry point `execute_script`), a `Goto` or taken `If`-jump to a label
whose (last) defining `Label` statement sits at index `j` — later or
earlier than the jump — resolves without error: the cache maps the label to
`j` and the step transfers control to `j` (or `j + 1` when that label
statement was already executed).  In the step-driven turn no prescan runs,
so a forward jump fails instead — see the counterexample. -/
theorem C2_prescan_forward_goto (script : List ASTNode) (s s' : InterpState)
    (L : String) (j : Nat) (stmt : ASTNode)
    (hdef : lastLabelIdx L script = some j)
    (hcache : alGet s'.label_cache L = some (Int.ofNat j))
    (hget : script.get? s'.runtime.current_line = some stmt)
    (hstmt : stmt = ASTNode.goto L ∨
      ∃ v cmp, stmt = ASTNode.ifStmt v cmp L ∧
        (s'.runtime.get_variable v).getD "" = cmp) :
    script.get? j = some (ASTNode.label L) ∧
    alGet (_scan_labels script s).label_cache L = some (Int.ofNat j) ∧
    (execute_script_step script s').1 = .ok none ∧
    (execute_script_step script s').2.has_jumped = true ∧
    (execute_script_step script s').2.runtime.current_line =
      (if j ∈ s'.label_statements_processed then j + 1 else j) := by
  have hlt : s'.runtime.current_line < script.length :=
    (List.get?_eq_some.mp hget).1
  have hElem : script[s'.runtime.current_line] = stmt := by
    rw [List.get?_eq_getElem?, List.getElem?_eq_getElem hlt] at hget
    exact Option.some.inj hget
  have hne : (Int.ofNat j) ≠ -1 := by
    show ((j : Nat) : Int) ≠ -1
    omega
  refine ⟨lastLabelIdx_get? L script j hdef, ?_, ?_⟩
  · unfold _scan_labels
    rw [scanLoop_lookup, hdef]
    simp
  · rcases hstmt with rfl | ⟨v, cmp, rfl, hcmp⟩
    · by_cases hmem : j ∈ s'.label_statements_processed <;>
        simp [execute_script_step, hlt, hElem, _execute_node, _jump_to_label,
          hcache, hne, hmem, Int.toNat_ofNat]
    · by_cases hmem : j ∈ s'.label_statements_processed <;>
        simp [execute_script_step, hlt, hElem, _execute_node, _jump_to_label,
          hcache, hne, hmem, hcmp, Int.toNat_ofNat]

theorem C2_prescan_forward_goto_witness :
    fwdScript.get? 2 = some (ASTNode.label "L") ∧
    alGet (_scan_labels fwdScript InterpState.init).label_cache "L" =
      some (Int.ofNat 2) ∧
    (execute_script_step fwdScript
      (_scan_labels fwdScript InterpState.init)).1 = .ok none ∧
    (execute_script_step fwdScript
      (_scan_labels fwdScript InterpState.init)).2.has_jumped = true ∧
    (execute_script_step fwdScript
        (_scan_labels fwdScript InterpState.init)).2.runtime.current_line =
      (if 2 ∈ (_scan_labels fwdScript
          InterpState.init).label_statements_processed then 2 + 1 else 2) :=
  C2_prescan_forward_goto fwdScript InterpState.init
    (_scan_labels fwdScript InterpState.init) "L" 2 (ASTNode.goto "L")
    (by decide) (by decide) (by decide) (Or.inl rfl)

/-- Claim C2 counterexample: when the script is driven one step at a time
through a turn (`DSLController._execute_script`), NO prescan runs: the
forward goto of spec scenario 2 fails with `UndefinedLabel` on its first
step and the turn returns the generic apology, instead of transferring
control to the later label. -/
theorem C2_counterexample :
    (execute_script_step fwdScript (resume_execution InterpState.init)).1 =
      .error (.undefinedLabel "L") ∧
    (controller_execute_script fwdScript 10 InterpState.init).map Prod.fst =
      some ["抱歉，系统出现错误，请稍后再试。"] := by decide

theorem matchFixed_mem :
    ∀ (specs : List (TokType × List Char)) (cs : List Char) (t : TokType)
      (kw rest : List Char),
    matchFixed specs cs = some (t, kw, rest) → (t, kw) ∈ specs := by
  intro specs
  induction specs with
  | nil =>
    intro cs t kw rest h
    simp [matchFixed] at h
  | cons p ps ih =>
    intro cs t kw rest h
    rcases p with ⟨t', kw'⟩
    rw [matchFixed] at h
    split at h
    · simp only [Option.some.injEq, Prod.mk.injEq] at h
      obtain ⟨h1, h2, -⟩ := h
      subst h1
      subst h2
      exact List.mem_cons_self _ _
    · exact List.mem_cons_of_mem _ (ih _ _ _ _ h)

theorem matchVariable_inv (cs raw rest : List Char)
    (h : matchVariable cs = some (raw, rest)) :
    ∃ c0 c cs', cs = c0 :: c :: cs' ∧ c0 = '$' ∧ isIdentStart c = true ∧
      raw = c0 :: c :: cs'.takeWhile isIdentChar := by
  cases cs with
  | nil => simp [matchVariable] at h
  | cons c0 cs1 =>
    cases cs1 with
    | nil => simp [matchVariable] at h
    | cons c cs' =>
      rw [matchVariable] at h
      by_cases hcond : c0 = '$' ∧ isIdentStart c = true
      · rw [if_pos hcond] at h
        simp only [Option.some.injEq, Prod.mk.injEq] at h
        exact ⟨c0, c, cs', rfl, hcond.1, hcond.2, h.1.symm⟩
      · rw [if_neg hcond] at h
        cases h

theorem matchLabelTok_inv (cs raw rest : List Char)
    (h : matchLabelTok cs = some (raw, rest)) :
    ∃ c cs', cs = c :: cs' ∧ isIdentStart c = true ∧
      raw = c :: (cs'.takeWhile isIdentChar ++ [':']) := by
  cases cs with
  | nil => simp [matchLabelTok] at h
  | cons c cs' =>
    rw [matchLabelTok] at h
    by_cases hstart : isIdentStart c = true
    · rw [if_pos hstart] at h
      dsimp only at h
      cases hdrop : cs'.drop (cs'.takeWhile isIdentChar).length with
      | nil =>
        rw [hdrop] at h
        cases h
      | cons c1 tail =>
        rw [hdrop] at h
        dsimp only at h
        by_cases hc1 : c1 = ':'
        · rw [if_pos hc1] at h
          simp only [Option.some.injEq, Prod.mk.injEq] at h
          subst hc1
          exact ⟨c, cs', rfl, hstart, h.1.symm⟩
        · rw [if_neg hc1] at h
          cases h
    · rw [if_neg hstart] at h
      cases h

theorem identStart_ne_newline (c : Char) (h : isIdentStart c = true) :
    c ≠ '\n' := by
  intro hc
  subst hc
  simp [isIdentStart] at h

theorem identChar_ne_newline (c : Char) (h : isIdentChar c = true) :
    c ≠ '\n' := by
  intro hc
  subst hc
  simp [isIdentChar] at h

theorem tryMatch_value_no_newline (cs : List Char) (t : TokType)
    (raw rest : List Char) (h : tryMatch cs = some (t, raw, rest))
    (hs : t ≠ TokType.STRING) (hn : t ≠ TokType.NEWLINE) :
    ¬ '\n' ∈ tokValue t raw := by
  unfold tryMatch at h
  cases h1 : matchFixed fixedSpecs1 cs with
  | some r =>
    rw [h1] at h
    rcases r with ⟨t1, kw1, rest1⟩
    simp only [Option.some.injEq, Prod.mk.injEq] at h
    obtain ⟨ht, hkw, -⟩ := h
    subst ht
    subst hkw
    have hm := matchFixed_mem _ _ _ _ _ h1
    fin_cases hm <;> decide
  | none =>
    rw [h1] at h
    cases h2 : matchStringLit cs with
    | some pr =>
      rw [h2] at h
      rcases pr with ⟨raw2, rest2⟩
      simp only [Option.some.injEq, Prod.mk.injEq] at h
      exact absurd h.1.symm hs
    | none =>
      rw [h2] at h
      cases h3 : matchVariable cs with
      | some pr =>
        rw [h3] at h
        rcases pr with ⟨raw3, rest3⟩
        simp only [Option.some.injEq, Prod.mk.injEq] at h
        obtain ⟨ht, hraw, -⟩ := h
        subst ht
        subst hraw
        obtain ⟨c0, c, cs', -, hc0, hc, hraw3⟩ := matchVariable_inv _ _ _ h3
        subst hraw3
        subst hc0
        have hval : tokValue TokType.VARIABLE
            ('$' :: c :: cs'.takeWhile isIdentChar) =
            '$' :: c :: cs'.takeWhile isIdentChar := rfl
        rw [hval]
        intro hmem
        rcases List.mem_cons.mp hmem with hx | hx
        · cases hx
        · rcases List.mem_cons.mp hx with hy | hy
          · exact identStart_ne_newline c hc hy.symm
          · exact identChar_ne_newline _ (List.mem_takeWhile_imp hy) rfl
      | none =>
        cases h4 : matchLabelTok cs with
        | some pr =>
          rw [h3, h4] at h
          rcases pr with ⟨raw4, rest4⟩
          simp only [Option.some.injEq, Prod.mk.injEq] at h
          obtain ⟨ht, hraw, -⟩ := h
          subst ht
          subst hraw
          obtain ⟨c, cs', -, hc, hraw4⟩ := matchLabelTok_inv _ _ _ h4
          subst hraw4
          have hval : tokValue TokType.LABEL
              (c :: (cs'.takeWhile isIdentChar ++ [':'])) =
              c :: cs'.takeWhile isIdentChar := by
            show ((c :: cs'.takeWhile isIdentChar) ++ [':']).dropLast =
              c :: cs'.takeWhile isIdentChar
            exact List.dropLast_concat
          rw [hval]
          intro hmem
          rcases List.mem_cons.mp hmem with hx | hx
          · exact identStart_ne_newline c hc hx.symm
          · exact identChar_ne_newline _ (List.mem_takeWhile_imp hx) rfl
        | none =>
          rw [h3, h4] at h
          have hm := matchFixed_mem _ _ _ _ _ h
          fin_cases hm
          · decide
          · exact absurd rfl hn
          · decide

theorem tokenizeLoop_no_newline :
    ∀ (fuel : Nat) (cs : List Char) (line col : Nat) (acc toks : List LexToken),
    tokenizeLoop fuel cs line col acc = some toks →
    (∀ t ∈ acc, t.type ≠ TokType.STRING → t.type ≠ TokType.NEWLINE →
      ¬ '\n' ∈ t.value) →
    ∀ t ∈ toks, t.type ≠ TokType.STRING → t.type ≠ TokType.NEWLINE →
      ¬ '\n' ∈ t.value := by
  intro fuel
  induction fuel with
  | zero =>
    intro cs line col acc toks h hacc
    simp [tokenizeLoop] at h
  | succ n ih =>
    intro cs line col acc toks h hacc
    rw [tokenizeLoop.eq_def] at h
    dsimp only at h
    cases cs with
    | nil =>
      simp only [Option.some.injEq] at h
      subst h
      intro t ht hts htn
      rcases List.mem_append.mp ht with hta | htb
      · exact hacc t hta hts htn
      · simp only [List.mem_singleton] at htb
        subst htb
        simp
    | cons c rest =>
      dsimp only at h
      by_cases hsp : c = ' ' ∨ c = '\t'
      · rw [if_pos hsp] at h
        exact ih _ _ _ _ _ h hacc
      · rw [if_neg hsp] at h
        by_cases hcm : c = '#'
        · rw [if_pos hcm] at h
          exact ih _ _ _ _ _ h hacc
        · rw [if_neg hcm] at h
          cases hm : tryMatch (c :: rest) with
          | none =>
            rw [hm] at h
            cases h
          | some r =>
            rcases r with ⟨t', raw, rest'⟩
            rw [hm] at h
            dsimp only at h
            have hval := tryMatch_value_no_newline _ _ _ _ hm
            have hacc' : ∀ t ∈ acc ++ [⟨t', tokValue t' raw, line, col⟩],
                t.type ≠ TokType.STRING → t.type ≠ TokType.NEWLINE →
                ¬ '\n' ∈ t.value := by
              intro t ht hts htn
              rcases List.mem_append.mp ht with hta | htb
              · exact hacc t hta hts htn
              · simp only [List.mem_singleton] at htb
                subst htb
                exact hval hts htn
            by_cases hnl : t' = TokType.NEWLINE
            · rw [if_pos hnl] at h
              exact ih _ _ _ _ _ h hacc'
            · rw [if_neg hnl] at h
              exact ih _ _ _ _ _ h hacc'

/-- Claim C8 (amended): on every source where tokenization succeeds, no
token other than a string literal (or the `NEWLINE` separator itself)
contains a newline in its text; a string literal MAY span newlines, since
its pattern matches every character except a double quote — see the
counterexample. -/
theorem C8_tokens_no_newline (src : String) (toks : List LexToken)
    (h : tokenize src = some toks) :
    ∀ t ∈ toks, t.type ≠ TokType.STRING → t.type ≠ TokType.NEWLINE →
      ¬ '\n' ∈ t.value :=
  tokenizeLoop_no_newline _ _ _ _ _ _ h (by intro t ht; simp at ht)

theorem C8_tokens_no_newline_witness :
    ¬ '\n' ∈ ("reply".data : List Char) :=
  C8_tokens_no_newline "reply \"hi\"\nexit" tokListC8 (by decide)
    ⟨TokType.REPLY, "reply".data, 1, 1⟩ (by decide) (by decide) (by decide)

/-- Claim C8 counterexample: the `STRING` pattern `\"[^\"]*\"` consumes
newlines, so tokenizing a quoted text with an embedded line break succeeds
and produces a single `STRING` token whose text contains the newline — and
that newline is not consumed as a `NEWLINE` token (the line counter stays
at 1). -/
theorem C8_counterexample :
    tokenize "\"a\nb\"" =
      some [⟨TokType.STRING, ['a', '\n', 'b'], 1, 1⟩, ⟨TokType.EOF, [], 1, 4⟩] ∧
    '\n' ∈ (['a', '\n', 'b'] : List Char) := by decide

end DSL
